import Mathlib

/-
  Verification development for the Focus Mode - Blocker browser extension
  (background service worker and storage layer).

  The embedding below is a shallow translation of the JavaScript in
  src/background/service-worker.js and src/shared/storage.js:

  - JavaScript strings are modelled as Lean `String` (with the character
    list `String.data` used for character-level operations).  Only ASCII
    case mapping is modelled for `toLowerCase`; no claim involves
    non-ASCII case folding.
  - JavaScript numbers that hold integral values (timestamps, durations,
    cycle counters) are modelled as `Int`; `Math.floor` of a quotient is
    `Int.fdiv` and `Math.ceil` is its negated dual.
  - The mutable chrome.storage state, the declarativeNetRequest dynamic
    rule table, the chrome.storage.session flag, the action badge and the
    alarm name set are collected into one record `St`; every handler is a
    function from `St` (plus an environment `Env` carrying the clock and
    the static prebuilt-list data) to a result and an updated `St`.
  - Notifications and the statistics aggregation inside
    `recordSession` / `getTodayStats` (storage.js) are not part of any
    claim; `recordSession` is modelled as appending the session record
    that the service worker passes to it.
-/

namespace FocusBlocker

-- ---------------------------------------------------------------------------
-- JavaScript string primitives
-- ---------------------------------------------------------------------------

/-- Characters removed by JavaScript `String.prototype.trim` (the common
whitespace and line-terminator code points). -/
def isWS (c : Char) : Bool :=
  c.toNat = 9 || c.toNat = 10 || c.toNat = 11 || c.toNat = 12 ||
  c.toNat = 13 || c.toNat = 32 || c.toNat = 160 ||
  c.toNat = 0x2028 || c.toNat = 0x2029 || c.toNat = 0xFEFF

/-- `input.trim()` on the character list. -/
def jsTrim (l : List Char) : List Char :=
  ((l.dropWhile isWS).reverse.dropWhile isWS).reverse

/-- ASCII case mapping of `String.prototype.toLowerCase`. -/
def jsToLowerChar (c : Char) : Char :=
  if 65 ≤ c.toNat ∧ c.toNat ≤ 90 then Char.ofNat (c.toNat + 32) else c

/-- `input.toLowerCase()` (ASCII fragment). -/
def jsToLower (l : List Char) : List Char := l.map jsToLowerChar

/-- Boolean prefix test on character lists. -/
def leadsWith : List Char → List Char → Bool
  | [], _ => true
  | _ :: _, [] => false
  | p :: ps, c :: cs => p = c && leadsWith ps cs

/-- `cleaned.replace(/^https?:\/\//, '')`. -/
def stripProtocol (l : List Char) : List Char :=
  if leadsWith ("https://".data) l then l.drop 8
  else if leadsWith ("http://".data) l then l.drop 7
  else l

/-- `cleaned.replace(/^www\./, '')`. -/
def stripWWW (l : List Char) : List Char :=
  if leadsWith ("www.".data) l then l.drop 4 else l

/-- `s.split(x)[0]`: everything before the first occurrence of `x`. -/
def takeTil (x : Char) (l : List Char) : List Char :=
  l.takeWhile (fun c => c != x)

-- ---------------------------------------------------------------------------
-- sanitizeDomain (service-worker.js, lines 54-64)
-- ---------------------------------------------------------------------------

/-- The character class `[a-z0-9]` of DOMAIN_REGEX. -/
def isAlnumLC (c : Char) : Bool :=
  (97 ≤ c.toNat && c.toNat ≤ 122) || (48 ≤ c.toNat && c.toNat ≤ 57)

/-- Split a character list at every dot, as the anchored DOMAIN_REGEX
does conceptually: the string matches iff it splits into at least two
dot-separated labels. -/
def splitOnDot : List Char → List (List Char)
  | [] => [[]]
  | c :: rest =>
    if c = '.' then [] :: splitOnDot rest
    else
      match splitOnDot rest with
      | [] => [[c]]
      | p :: ps => (c :: p) :: ps

/-- One label of DOMAIN_REGEX: `[a-z0-9]([a-z0-9-]*[a-z0-9])?`. -/
def isLabel : List Char → Bool
  | [] => false
  | c :: rest =>
    match rest.getLast? with
    | none => isAlnumLC c
    | some lastc =>
      isAlnumLC c && isAlnumLC lastc &&
      (c :: rest).all (fun ch => isAlnumLC ch || ch == '-')

/-- Full-string match of
`/^[a-z0-9]([a-z0-9-]*[a-z0-9])?(\.[a-z0-9]([a-z0-9-]*[a-z0-9])?)+$/`:
at least two dot-separated labels, each matching the label grammar. -/
def domainRegexMatch (l : List Char) : Bool :=
  let parts := splitOnDot l
  decide (2 ≤ parts.length) && parts.all isLabel

/-- The cleaning pipeline of `sanitizeDomain`: trim, lower-case, strip a
protocol, strip one leading `www.`, cut at the first `/`, `?`, `#`
and `:`. -/
def cleanup (l : List Char) : List Char :=
  takeTil ':' (takeTil '#' (takeTil '?' (takeTil '/'
    (stripWWW (stripProtocol (jsToLower (jsTrim l)))))))

/-- `sanitizeDomain` on the character list: empty input is falsy and
rejected up front; the cleaned string is rejected when empty, longer
than 253 characters, dot-free, or failing DOMAIN_REGEX. -/
def sanitizeCore (l : List Char) : Option (List Char) :=
  if l.isEmpty then none
  else if (cleanup l).isEmpty || decide (253 < (cleanup l).length) ||
      !((cleanup l).contains '.') then none
  else if !(domainRegexMatch (cleanup l)) then none
  else some (cleanup l)

/-- `sanitizeDomain(input)`; `none` is the `null` sentinel. -/
def sanitizeDomain (s : String) : Option String :=
  (sanitizeCore s.data).map String.mk

-- ---------------------------------------------------------------------------
-- Data model (storage.js defaults and service-worker state)
-- ---------------------------------------------------------------------------

/-- `settings.nuclearMode`: `{ active, endsAt }`; `endsAt` is `null` when
inactive.  A JavaScript comparison against a `null` `endsAt` coerces it
to 0, modelled by `Option.getD 0` at each use site. -/
structure NuclearMode where
  active : Bool
  endsAt : Option Int
deriving Repr, DecidableEq

/-- `settings.schedule`: `{ enabled, days, startTime, endTime }`. -/
structure Schedule where
  enabled : Bool
  days : List Nat
  startTime : String
  endTime : String
deriving Repr, DecidableEq

/-- The `settings` sub-objects the engine reads and writes.  The purely
cosmetic fields (theme, sound, volume, notification muting) are never
consulted by the claims and are omitted. -/
structure Settings where
  schedule : Option Schedule
  nuclearMode : Option NuclearMode
deriving Repr, DecidableEq

/-- `timerState`: `{ status, remaining, duration, startedAt, cycle }`,
with `status` one of the literal strings used by the worker. -/
structure TimerState where
  status : String
  remaining : Int
  duration : Int
  startedAt : Option Int
  cycle : Int
deriving Repr, DecidableEq

/-- The record handed to `recordSession` in storage.js. -/
structure SessionRecord where
  duration : Int
  focusMinutes : Int
  completed : Bool
deriving Repr, DecidableEq

/-- One dynamic declarativeNetRequest rule as built by
`updateBlockingRules` (the redirect action is not consulted by any
claim; the id and the urlFilter condition are kept). -/
structure Rule where
  id : Nat
  urlFilter : String
deriving Repr, DecidableEq

/-- The mutable world of the service worker: chrome.storage.local keys,
the dynamic rule table, the chrome.storage.session `focusActive` flag,
the action badge text and the set of scheduled alarm names. -/
structure St where
  blocklist : List String
  activePrebuiltLists : List String
  timerState : Option TimerState
  settings : Settings
  recordedSessions : List SessionRecord
  rules : List Rule
  sessionFlag : Bool
  badge : Option String
  alarms : List String
deriving Repr, DecidableEq

/-- Read-only environment: the wall clock (`Date.now()`), the local
weekday and HH:MM time used by `isScheduleActive`, and the static
contents of blocklists.json keyed by prebuilt list id. -/
structure Env where
  now : Int
  currentDay : Nat
  currentTime : String
  prebuilt : String → Option (List String)

-- ---------------------------------------------------------------------------
-- Constants
-- ---------------------------------------------------------------------------

def ALARM_TICK : String := "focus-tick"

def ALARM_SCHEDULE_CHECK : String := "schedule-check"

def ALARM_NUCLEAR_END : String := "nuclear-end"

structure TimerDefaults where
  focusDuration : Int
  shortBreakDuration : Int
  longBreakDuration : Int
  cyclesToLongBreak : Int

def DEFAULTS_TIMER : TimerDefaults :=
  { focusDuration := 25, shortBreakDuration := 5,
    longBreakDuration := 15, cyclesToLongBreak := 4 }

def MAX_BLOCKLIST_SIZE : Nat := 500

-- ---------------------------------------------------------------------------
-- Small effect helpers (alarms, badge, session flag, timer state)
-- ---------------------------------------------------------------------------

/-- `chrome.alarms.create(name, ...)`: at most one alarm per name. -/
def addAlarm (name : String) (st : St) : St :=
  if st.alarms.contains name then st else { st with alarms := st.alarms ++ [name] }

/-- `chrome.alarms.clear(name)`. -/
def clearAlarm (name : String) (st : St) : St :=
  { st with alarms := st.alarms.filter (fun m => m != name) }

/-- `updateBadge(mode, minutes)`: only the rendered badge text is kept. -/
def updateBadge (mode : String) (minutes : Int) (st : St) : St :=
  if mode = "focus" then { st with badge := some (toString minutes ++ "m") }
  else if mode = "break" then { st with badge := some ("BRK") }
  else if mode = "nuclear" then { st with badge := some ("NUC") }
  else st

/-- `clearBadge()`. -/
def clearBadge (st : St) : St := { st with badge := some ("") }

/-- `setSessionFlag(active)` (chrome.storage.session `focusActive`). -/
def setSessionFlag (b : Bool) (st : St) : St := { st with sessionFlag := b }

/-- `Math.ceil(a / b)` for integral inputs with `b > 0`. -/
def ceilDiv (a b : Int) : Int := -((-a).fdiv b)

/-- `recordSession(session)` from storage.js, modelled as appending the
record; the statistics, history-pruning and streak bookkeeping inside it
touch no state any claim mentions. -/
def recordSession (s : SessionRecord) (st : St) : St :=
  { st with recordedSessions := st.recordedSessions ++ [s] }

-- ---------------------------------------------------------------------------
-- Blocking rules (updateBlockingRules / clearBlockingRules)
-- ---------------------------------------------------------------------------

/-- The per-domain cleaning in `updateBlockingRules`, `handleCheckBlocked`
and `handleOverrideBlock`:
`domain.replace(/^www\./, '').replace(/\/.*$/, '')`.  The second regex
deletes from the leftmost `/` whose suffix holds no line terminator. -/
def hasLineTerm (l : List Char) : Bool :=
  l.any (fun c => c.toNat = 10 || c.toNat = 13 || c.toNat = 0x2028 || c.toNat = 0x2029)

def replaceSlashTail : List Char → List Char
  | [] => []
  | c :: rest =>
    if c = '/' && !(hasLineTerm rest) then []
    else c :: replaceSlashTail rest

def cleanDomain (s : String) : String :=
  String.mk (replaceSlashTail (stripWWW s.data))

/-- Rule construction loop of `updateBlockingRules` (`ruleId` starts
at 1). -/
def buildRules : Nat → List String → List Rule
  | _, [] => []
  | i, d :: ds => ⟨i, "||" ++ cleanDomain d⟩ :: buildRules (i + 1) ds

/-- `updateBlockingRules(domains)`: removes every existing dynamic rule,
then installs one redirect rule per domain. -/
def updateBlockingRulesSt (domains : List String) (st : St) : St :=
  { st with rules := buildRules 1 domains }

/-- `clearBlockingRules()`. -/
def clearBlockingRulesSt (st : St) : St := { st with rules := [] }

-- ---------------------------------------------------------------------------
-- getFullBlocklist (storage.js)
-- ---------------------------------------------------------------------------

/-- First-occurrence deduplication, accumulating into `acc`; this is both
the `[...new Set(allSites)]` order of `getFullBlocklist` and the shape of
the sanitize-and-dedup loop of `handleUpdateBlocklist`. -/
def dedupInto (acc : List String) : List String → List String
  | [] => acc
  | x :: xs => dedupInto (if acc.contains x then acc else acc ++ [x]) xs

def dedupFirst (l : List String) : List String := dedupInto [] l

/-- `getFullBlocklist()`: manual blocklist, then the sites of each active
prebuilt list in order, deduplicated in first-occurrence order. -/
def getFullBlocklist (st : St) (env : Env) : List String :=
  dedupFirst
    (st.activePrebuiltLists.foldl
      (fun acc id => acc ++ ((env.prebuilt id).getD [])) st.blocklist)

-- ---------------------------------------------------------------------------
-- Nuclear mode (isNuclearActive, activateNuclear, onNuclearEnd)
-- ---------------------------------------------------------------------------

/-- `isNuclearActive()` (lines 465-476): lazily expires a stale lock,
persisting `{ active: false, endsAt: null }` before answering `false`. -/
def isNuclearActive (st : St) (env : Env) : Bool × St :=
  match st.settings.nuclearMode with
  | none => (false, st)
  | some nm =>
    if !nm.active then (false, st)
    else if nm.endsAt.getD 0 ≤ env.now then
      (false, { st with settings := { st.settings with nuclearMode := some ⟨false, none⟩ } })
    else (true, st)

/-- The inline guard
`settings.nuclearMode && settings.nuclearMode.active && Date.now() < settings.nuclearMode.endsAt`
used by `startFocusSession`, `stopSession` and `onFocusComplete`
(it does not self-heal). -/
def nuclearUnexpired (st : St) (env : Env) : Bool :=
  match st.settings.nuclearMode with
  | none => false
  | some nm => nm.active && decide (env.now < nm.endsAt.getD 0)

-- ---------------------------------------------------------------------------
-- Schedule (isScheduleActive, checkSchedule)
-- ---------------------------------------------------------------------------

/-- Lexicographic string comparison, as the JavaScript `<=` on the
zero-padded HH:MM strings. -/
def charsLe : List Char → List Char → Bool
  | [], _ => true
  | _ :: _, [] => false
  | a :: as, b :: bs => if a = b then charsLe as bs else decide (a < b)

def strLe (a b : String) : Bool := charsLe a.data b.data

/-- `isScheduleActive()` (lines 482-499). -/
def isScheduleActive (st : St) (env : Env) : Bool :=
  match st.settings.schedule with
  | none => false
  | some sch =>
    if !sch.enabled then false
    else if !(sch.days.contains env.currentDay) then false
    else strLe sch.startTime env.currentTime && strLe env.currentTime sch.endTime

/-- True when `timerState` is absent or `status === 'idle'`. -/
def tsIdleOrNone : Option TimerState → Bool
  | none => true
  | some ts => ts.status == "idle"

/-- `checkSchedule()` (lines 501-520). -/
def checkSchedule (st : St) (env : Env) : St :=
  let active := isScheduleActive st env
  let timerState := st.timerState
  let p := isNuclearActive st env
  let st := p.2
  if p.1 then st
  else if active && tsIdleOrNone timerState then
    setSessionFlag true (updateBlockingRulesSt (getFullBlocklist st env) st)
  else if !active &&
      (tsIdleOrNone timerState ||
        (match timerState with
         | some ts => ts.status == "break" || ts.status == "longbreak"
         | none => true)) then
    if tsIdleOrNone timerState then
      setSessionFlag false (clearBlockingRulesSt st)
    else st
  else st

-- ---------------------------------------------------------------------------
-- Focus timer (startFocusSession, stopSession, completions)
-- ---------------------------------------------------------------------------

/-- `startFocusSession(durationMinutes)` (lines 183-211).  A falsy (zero)
duration falls back to the 25-minute default. -/
def startFocusSession (durationMinutes : Int) (st : St) (env : Env) : St :=
  let duration :=
    (if durationMinutes = 0 then DEFAULTS_TIMER.focusDuration else durationMinutes) * 60
  let cycle :=
    match st.timerState with
    | some ts => if ts.cycle ≠ 0 then ts.cycle else 1
    | none => 1
  let ts : TimerState :=
    { status := "focus", remaining := duration, duration := duration,
      startedAt := some env.now, cycle := cycle }
  let st := setSessionFlag true { st with timerState := some ts }
  let st := updateBlockingRulesSt (getFullBlocklist st env) st
  let st := updateBadge ("focus") (ceilDiv duration 60) st
  addAlarm ALARM_TICK st

/-- Result shape of the `{ success: true } / { error }` handlers. -/
inductive MsgResult where
  | ok
  | err (msg : String)
deriving Repr, DecidableEq

/-- `stopSession()` (lines 213-244). -/
def stopSession (st : St) (env : Env) : MsgResult × St :=
  if nuclearUnexpired st env then
    (.err ("Cannot stop session during nuclear mode."), st)
  else
    let st :=
      match st.timerState with
      | some ts =>
        if ts.status = "focus" then
          let elapsed := (env.now - ts.startedAt.getD 0).fdiv 1000
          recordSession ⟨ts.duration, elapsed.fdiv 60, false⟩ st
        else st
      | none => st
    let st := { st with timerState := none }
    let st := clearAlarm ALARM_TICK st
    let st :=
      if !(isScheduleActive st env) then
        setSessionFlag false (clearBlockingRulesSt st)
      else st
    (.ok, clearBadge st)

/-- `onFocusComplete(timerState)` (lines 304-348). -/
def onFocusComplete (ts : TimerState) (st : St) (env : Env) : St :=
  let st := recordSession ⟨ts.duration, ts.duration.fdiv 60, true⟩ st
  let isLongBreak := ts.cycle ≥ DEFAULTS_TIMER.cyclesToLongBreak
  let nextCycle := if isLongBreak then 1 else ts.cycle + 1
  let breakState : TimerState :=
    { status := if isLongBreak then "longbreak" else "break",
      remaining :=
        (if isLongBreak then DEFAULTS_TIMER.longBreakDuration
         else DEFAULTS_TIMER.shortBreakDuration) * 60,
      duration :=
        (if isLongBreak then DEFAULTS_TIMER.longBreakDuration
         else DEFAULTS_TIMER.shortBreakDuration) * 60,
      startedAt := some env.now, cycle := nextCycle }
  let st := { st with timerState := some breakState }
  let nuclearActive := nuclearUnexpired st env
  let scheduleActive := isScheduleActive st env
  let st := if !nuclearActive && !scheduleActive then clearBlockingRulesSt st else st
  let st := updateBadge ("break") 0 st
  addAlarm ALARM_TICK st

/-- `onBreakComplete(timerState)` (lines 350-376). -/
def onBreakComplete (ts : TimerState) (st : St) (env : Env) : St :=
  let idleState : TimerState :=
    { status := "idle", remaining := 0, duration := 0, startedAt := none, cycle := ts.cycle }
  let st := { st with timerState := some idleState }
  let st := clearBadge st
  let scheduleActive := isScheduleActive st env
  let p := isNuclearActive st env
  let st := p.2
  if !scheduleActive && !p.1 then setSessionFlag false st else st

-- ---------------------------------------------------------------------------
-- Nuclear activation and expiry
-- ---------------------------------------------------------------------------

/-- `activateNuclear(durationMinutes)` (lines 415-434): writes
`endsAt = Date.now() + minutes*60*1000` unconditionally, with no check
for an already-active lock. -/
def activateNuclear (durationMinutes : Int) (st : St) (env : Env) : St :=
  let endsAt := env.now + durationMinutes * 60 * 1000
  let st :=
    { st with settings :=
      { st.settings with nuclearMode := some ⟨true, some endsAt⟩ } }
  let st := updateBlockingRulesSt (getFullBlocklist st env) st
  let st := setSessionFlag true st
  let st := updateBadge ("nuclear") 0 st
  addAlarm ALARM_NUCLEAR_END st

/-- The ACTIVATE_NUCLEAR arm of `handleMessage` (lines 568-576): the
duration must be a finite number in (0, 1440].  Integer inputs are
always finite, so the `Number.isFinite` test is vacuous here. -/
def handleActivateNuclearMsg (duration : Int) (st : St) (env : Env) : MsgResult × St :=
  if duration ≤ 0 || 1440 < duration then
    (.err ("Invalid nuclear duration. Must be 1-1440 minutes."), st)
  else (.ok, activateNuclear duration st env)

/-- `onNuclearEnd()` (lines 436-463). -/
def onNuclearEnd (st : St) (env : Env) : St :=
  let st :=
    { st with settings := { st.settings with nuclearMode := some ⟨false, none⟩ } }
  match st.timerState with
  | some ts =>
    if ts.status = "focus" then updateBadge ("focus") (ceilDiv ts.remaining 60) st
    else if ts.status = "break" || ts.status = "longbreak" then updateBadge ("break") 0 st
    else
      let st :=
        if !(isScheduleActive st env) then
          setSessionFlag false (clearBlockingRulesSt st)
        else st
      clearBadge st
  | none =>
    let st :=
      if !(isScheduleActive st env) then
        setSessionFlag false (clearBlockingRulesSt st)
      else st
    clearBadge st

-- ---------------------------------------------------------------------------
-- handleCheckBlocked (lines 738-766)
-- ---------------------------------------------------------------------------

/-- Response of the CHECK_BLOCKED message. -/
structure CheckResult where
  blocked : Bool
  reason : Option String
deriving Repr, DecidableEq

/-- The membership test of `handleCheckBlocked`: the queried domain and
every effective blocklist entry are compared for exact equality after
`replace(/^www\./, '').replace(/\/.*$/, '')` on both sides. -/
def inEffectiveBlocklist (st : St) (env : Env) (domain : String) : Bool :=
  let domains := getFullBlocklist st env
  let c := cleanDomain domain
  domains.any (fun d => cleanDomain d == c)

/-- `handleCheckBlocked(payload)`: not-blocked for non-members, then
nuclear, then schedule, then an active focus session (reported with
reason string `blocklist`). -/
def handleCheckBlocked (domain : String) (st : St) (env : Env) : CheckResult × St :=
  if !(inEffectiveBlocklist st env domain) then (⟨false, none⟩, st)
  else
    let p := isNuclearActive st env
    let st := p.2
    if p.1 then (⟨true, some ("nuclear")⟩, st)
    else if isScheduleActive st env then (⟨true, some ("schedule")⟩, st)
    else
      match st.timerState with
      | some ts =>
        if ts.status = "focus" then (⟨true, some ("blocklist")⟩, st)
        else (⟨false, none⟩, st)
      | none => (⟨false, none⟩, st)

-- ---------------------------------------------------------------------------
-- handleUpdateBlocklist (lines 669-708)
-- ---------------------------------------------------------------------------

/-- The sanitize-validate-dedup loop of `handleUpdateBlocklist`: aborts
with the first invalid entry (truncated to 100 characters in the error
text), otherwise accumulates each cleaned domain not already present. -/
def sanitizeLoop (acc : List String) : List String → Except String (List String)
  | [] => .ok acc
  | site :: rest =>
    match sanitizeDomain site with
    | none => .error ("Invalid domain: " ++ String.mk (site.data.take 100))
    | some clean =>
      sanitizeLoop (if acc.contains clean then acc else acc ++ [clean]) rest

/-- `handleUpdateBlocklist(sites)`.  The input is typed as a list of
strings: a non-string entry is rejected by `sanitizeDomain` in the
source exactly as an invalid string is, and no claim distinguishes the
two.  The 5 MiB `setStorage` ceiling cannot be reached by at most 500
entries of at most 253 characters and is not modelled. -/
def handleUpdateBlocklist (sites : List String) (st : St) (env : Env) : MsgResult × St :=
  let p := isNuclearActive st env
  let st := p.2
  if p.1 then (.err ("Cannot modify blocklist during nuclear mode."), st)
  else if MAX_BLOCKLIST_SIZE < sites.length then
    (.err ("Blocklist cannot exceed " ++ toString MAX_BLOCKLIST_SIZE ++ " sites."), st)
  else
    match sanitizeLoop [] sites with
    | .error e => (.err e, st)
    | .ok sanitized =>
      let st := { st with blocklist := sanitized }
      let focusActive :=
        match st.timerState with
        | some ts => ts.status == "focus"
        | none => false
      let st :=
        if focusActive || isScheduleActive st env then
          updateBlockingRulesSt (getFullBlocklist st env) st
        else st
      (.ok, st)

-- ---------------------------------------------------------------------------
-- restoreState (lines 942-994)
-- ---------------------------------------------------------------------------

/-- JavaScript truthiness of the stored `startedAt` (`null` and `0` are
falsy). -/
def startedAtTruthy : Option Int → Bool
  | none => false
  | some t => t != 0

/-- `restoreState()`: nuclear recovery first; otherwise re-derive the
session remaining and either run the missed completion or resume the
tick, re-asserting rules and the session flag for a focus session. -/
def restoreState (st : St) (env : Env) : St :=
  let timerState := st.timerState
  let p := isNuclearActive st env
  let st := p.2
  if p.1 then
    let endsAt :=
      match st.settings.nuclearMode with
      | some nm => nm.endsAt.getD 0
      | none => 0
    if 0 < endsAt - env.now then
      let st := updateBlockingRulesSt (getFullBlocklist st env) st
      let st := setSessionFlag true st
      let st := updateBadge ("nuclear") 0 st
      addAlarm ALARM_NUCLEAR_END st
    else onNuclearEnd st env
  else
    match timerState with
    | some ts =>
      if startedAtTruthy ts.startedAt && ts.status != "idle" then
        let elapsed := (env.now - ts.startedAt.getD 0).fdiv 1000
        let remaining := ts.duration - elapsed
        if remaining ≤ 0 then
          if ts.status = "focus" then onFocusComplete ts st env
          else onBreakComplete ts st env
        else
          let ts := { ts with remaining := remaining }
          let st := { st with timerState := some ts }
          let st :=
            if ts.status = "focus" then
              let st := updateBlockingRulesSt (getFullBlocklist st env) st
              let st := setSessionFlag true st
              updateBadge ("focus") (ceilDiv remaining 60) st
            else updateBadge ("break") 0 st
          addAlarm ALARM_TICK st
      else checkSchedule st env
    | none => checkSchedule st env

-- ---------------------------------------------------------------------------
-- Shared helper lemmas
-- ---------------------------------------------------------------------------

/-- The stale-lock condition that makes `isNuclearActive` self-heal:
the flag is set but `endsAt` has passed. -/
def staleNuclear (st : St) (env : Env) : Bool :=
  match st.settings.nuclearMode with
  | none => false
  | some nm => nm.active && decide (nm.endsAt.getD 0 ≤ env.now)

/-- The state written by the nuclear self-heal. -/
def healNuclear (st : St) : St :=
  { st with settings := { st.settings with nuclearMode := some ⟨false, none⟩ } }

theorem isNuclearActive_snd (st : St) (env : Env) :
    (isNuclearActive st env).2 = if staleNuclear st env then healNuclear st else st := by
  unfold isNuclearActive staleNuclear healNuclear
  cases hnm : st.settings.nuclearMode with
  | none => simp
  | some nm =>
    cases ha : nm.active with
    | false => simp [ha]
    | true =>
      by_cases he : nm.endsAt.getD 0 ≤ env.now <;> simp [ha, he]

theorem isNuclearActive_preserves (st : St) (env : Env) :
    (isNuclearActive st env).2.blocklist = st.blocklist ∧
    (isNuclearActive st env).2.activePrebuiltLists = st.activePrebuiltLists ∧
    (isNuclearActive st env).2.timerState = st.timerState ∧
    (isNuclearActive st env).2.settings.schedule = st.settings.schedule ∧
    (isNuclearActive st env).2.rules = st.rules := by
  rw [isNuclearActive_snd]
  by_cases h : staleNuclear st env <;> simp [h, healNuclear]

theorem isScheduleActive_heal (st : St) (env : Env) :
    isScheduleActive (isNuclearActive st env).2 env = isScheduleActive st env := by
  rw [isNuclearActive_snd]
  by_cases h : staleNuclear st env <;> simp [h, healNuclear, isScheduleActive]

theorem getFullBlocklist_heal (st : St) (env : Env) :
    getFullBlocklist (isNuclearActive st env).2 env = getFullBlocklist st env := by
  rw [isNuclearActive_snd]
  by_cases h : staleNuclear st env <;> simp [h, healNuclear, getFullBlocklist]

-- ---------------------------------------------------------------------------
-- C2: nuclear lazy expiry self-heals and persists the correction
-- ---------------------------------------------------------------------------

/-- C2: for every stored nuclear state with `active = true` and `endsAt`
in the past (`now >= endsAt`), `isNuclearActive` returns `false` and
persists the corrected `{ active: false, endsAt: null }` state, so a
caller never observes a stale active lock after such a read. -/
theorem isNuclearActive_selfHeals (st : St) (env : Env) (nm : NuclearMode)
    (hnm : st.settings.nuclearMode = some nm) (ha : nm.active = true)
    (he : nm.endsAt.getD 0 ≤ env.now) :
    isNuclearActive st env =
      (false, { st with settings := { st.settings with nuclearMode := some ⟨false, none⟩ } }) := by
  unfold isNuclearActive
  simp [hnm, ha, he]

theorem isNuclearActive_selfHeals_witness :
    ((⟨[], [], none, ⟨none, some ⟨true, some 5⟩⟩, [], [], false, none, []⟩ : St).settings.nuclearMode
        = some ⟨true, some 5⟩) ∧
    ((5 : Int) ≤ (10 : Int)) ∧
    isNuclearActive ⟨[], [], none, ⟨none, some ⟨true, some 5⟩⟩, [], [], false, none, []⟩
        ⟨10, 1, "12:00", fun _ => none⟩ =
      (false, ⟨[], [], none, ⟨none, some ⟨false, none⟩⟩, [], [], false, none, []⟩) :=
  ⟨rfl, by decide,
    isNuclearActive_selfHeals _ _ ⟨true, some 5⟩ rfl rfl (by decide)⟩

-- ---------------------------------------------------------------------------
-- C3: stop is refused while nuclear is active and unexpired
-- ---------------------------------------------------------------------------

/-- C3: whenever nuclear mode is active and unexpired, `stopSession`
answers the policy-violation error and returns the state completely
unchanged: no incomplete session record, no timer-state clearing, no
rule or flag or alarm change. -/
theorem stopSession_refusedDuringNuclear (st : St) (env : Env)
    (h : nuclearUnexpired st env = true) :
    stopSession st env = (.err ("Cannot stop session during nuclear mode."), st) := by
  unfold stopSession
  simp [h]

theorem stopSession_refusedDuringNuclear_witness :
    nuclearUnexpired
        ⟨["a.com"], [], some ⟨"focus", 60, 60, some 0, 1⟩, ⟨none, some ⟨true, some 900000⟩⟩,
          [], buildRules 1 ["a.com"], true, none, [ALARM_TICK]⟩
        ⟨10, 1, "12:00", fun _ => none⟩ = true ∧
    stopSession
        ⟨["a.com"], [], some ⟨"focus", 60, 60, some 0, 1⟩, ⟨none, some ⟨true, some 900000⟩⟩,
          [], buildRules 1 ["a.com"], true, none, [ALARM_TICK]⟩
        ⟨10, 1, "12:00", fun _ => none⟩ =
      (.err ("Cannot stop session during nuclear mode."),
        ⟨["a.com"], [], some ⟨"focus", 60, 60, some 0, 1⟩, ⟨none, some ⟨true, some 900000⟩⟩,
          [], buildRules 1 ["a.com"], true, none, [ALARM_TICK]⟩) :=
  ⟨by decide, stopSession_refusedDuringNuclear _ _ (by decide)⟩

-- ---------------------------------------------------------------------------
-- C10: activateNuclear overwrites an existing lock unconditionally
-- ---------------------------------------------------------------------------

/-- C10: `activateNuclear` never checks for an existing lock: a second
ACTIVATE_NUCLEAR request that passes validation rewrites `endsAt` to
`now + minutes*60*1000`, so a shorter duration moves `endsAt` earlier
and shrinks the remaining commitment window. -/
theorem activateNuclear_overwritesLock (st : St) (env : Env) (d : Int) (nm : NuclearMode)
    (hnm : st.settings.nuclearMode = some nm) (ha : nm.active = true)
    (hd : 0 < d) (hmax : d ≤ 1440) :
    (handleActivateNuclearMsg d st env).1 = .ok ∧
    (handleActivateNuclearMsg d st env).2.settings.nuclearMode =
      some ⟨true, some (env.now + d * 60 * 1000)⟩ ∧
    (env.now + d * 60 * 1000 < nm.endsAt.getD 0 →
      ∃ e : Int, (handleActivateNuclearMsg d st env).2.settings.nuclearMode =
          some ⟨true, some e⟩ ∧ e < nm.endsAt.getD 0) := by
  unfold handleActivateNuclearMsg activateNuclear
  have hg : ¬(d ≤ 0 || 1440 < d) = true := by simp; omega
  refine ⟨by simp [hg], ?_, ?_⟩
  · simp [hg, updateBlockingRulesSt, setSessionFlag, updateBadge, addAlarm]
    split <;> rfl
  · intro hlt
    refine ⟨env.now + d * 60 * 1000, ?_, hlt⟩
    simp [hg, updateBlockingRulesSt, setSessionFlag, updateBadge, addAlarm]
    split <;> rfl

theorem activateNuclear_overwritesLock_witness :
    ((⟨[], [], none, ⟨none, some ⟨true, some 3600000⟩⟩, [], [], true, none, []⟩ : St).settings.nuclearMode
        = some ⟨true, some 3600000⟩) ∧
    ((0 : Int) + 1 * 60 * 1000 < 3600000) ∧
    (∃ e : Int,
      (handleActivateNuclearMsg 1
          ⟨[], [], none, ⟨none, some ⟨true, some 3600000⟩⟩, [], [], true, none, []⟩
          ⟨0, 1, "12:00", fun _ => none⟩).2.settings.nuclearMode = some ⟨true, some e⟩ ∧
        e < (3600000 : Int)) :=
  ⟨rfl, by decide,
    (activateNuclear_overwritesLock _ _ 1 ⟨true, some 3600000⟩ rfl rfl (by decide) (by decide)).2.2
      (by decide)⟩

-- ---------------------------------------------------------------------------
-- C5: focus completion chooses the break kind, advances the cycle, and
-- clears rules exactly when neither nuclear nor schedule is active
-- ---------------------------------------------------------------------------

/-- C5: on focus completion, the machine enters `longbreak` exactly when
`cycle >= cyclesToLongBreak` (4) and `break` otherwise; the new cycle is
1 after a long break and `cycle + 1` otherwise; the corresponding break
duration is installed with a fresh `startedAt`; and the rule table is
cleared precisely when neither the (unexpired) nuclear lock nor the
schedule is active at completion time, and is untouched otherwise. -/
theorem onFocusComplete_spec (ts : TimerState) (st : St) (env : Env) :
    (onFocusComplete ts st env).timerState =
      some
        { status :=
            if ts.cycle ≥ DEFAULTS_TIMER.cyclesToLongBreak then ("longbreak") else ("break"),
          remaining :=
            (if ts.cycle ≥ DEFAULTS_TIMER.cyclesToLongBreak then DEFAULTS_TIMER.longBreakDuration
             else DEFAULTS_TIMER.shortBreakDuration) * 60,
          duration :=
            (if ts.cycle ≥ DEFAULTS_TIMER.cyclesToLongBreak then DEFAULTS_TIMER.longBreakDuration
             else DEFAULTS_TIMER.shortBreakDuration) * 60,
          startedAt := some env.now,
          cycle := if ts.cycle ≥ DEFAULTS_TIMER.cyclesToLongBreak then 1 else ts.cycle + 1 } ∧
    (onFocusComplete ts st env).rules =
      (if nuclearUnexpired st env = false ∧ isScheduleActive st env = false then []
       else st.rules) := by
  unfold onFocusComplete
  by_cases hl : ts.cycle ≥ DEFAULTS_TIMER.cyclesToLongBreak <;>
    by_cases hn : nuclearUnexpired st env = true <;>
    by_cases hs : isScheduleActive st env = true <;>
    simp_all [nuclearUnexpired, isScheduleActive, recordSession, clearBlockingRulesSt,
      updateBadge, addAlarm] <;>
    split <;> simp_all

-- ---------------------------------------------------------------------------
-- C1: block-decision precedence and reason strings
-- ---------------------------------------------------------------------------

/-- C1 counterexample: the claimed precedence and reason strings do not
match the code.  With blocklist `["reddit.com"]`, no schedule and no
nuclear, after `start(25)` the call `checkBlocked("reddit.com")` returns
reason `blocklist`, not the claimed `focusSession`; and when a focus
session and an active schedule window hold simultaneously (nuclear off),
the reported reason is `schedule`, not the claimed `focusSession`. -/
theorem handleCheckBlocked_reason_counterexample :
    ((handleCheckBlocked ("reddit.com")
        (startFocusSession 25
          ⟨["reddit.com"], [], none, ⟨none, none⟩, [], [], false, none, []⟩
          ⟨1000000000, 1, "12:00", fun _ => none⟩)
        ⟨1000000000, 1, "12:00", fun _ => none⟩).1 = ⟨true, some ("blocklist")⟩) ∧
    ((handleCheckBlocked ("reddit.com")
        (startFocusSession 25
          ⟨["reddit.com"], [], none, ⟨none, none⟩, [], [], false, none, []⟩
          ⟨1000000000, 1, "12:00", fun _ => none⟩)
        ⟨1000000000, 1, "12:00", fun _ => none⟩).1.reason ≠ some ("focusSession")) ∧
    ((handleCheckBlocked ("a.com")
        (startFocusSession 25
          ⟨["a.com"], [], none, ⟨some ⟨true, [1], "09:00", "17:00"⟩, none⟩, [], [], false, none, []⟩
          ⟨1000000000, 1, "12:00", fun _ => none⟩)
        ⟨1000000000, 1, "12:00", fun _ => none⟩).1 = ⟨true, some ("schedule")⟩) := by
  refine ⟨by decide, by decide, by decide⟩

/-- C1 amended: for a domain in the effective blocklist,
`handleCheckBlocked` reports the highest-precedence active source in the
order nuclear > schedule > focus session, and labels an active focus
session with the reason string `blocklist` (not `focusSession`): with
nuclear active and unexpired it answers `nuclear`; with nuclear inactive
and the schedule window active it answers `schedule` even if a focus
session is also running; with only a focus session it answers
`blocklist`. -/
theorem handleCheckBlocked_precedence (domain : String) (st : St) (env : Env)
    (hmem : inEffectiveBlocklist st env domain = true) :
    ((isNuclearActive st env).1 = true →
      (handleCheckBlocked domain st env).1 = ⟨true, some ("nuclear")⟩) ∧
    ((isNuclearActive st env).1 = false → isScheduleActive st env = true →
      (handleCheckBlocked domain st env).1 = ⟨true, some ("schedule")⟩) ∧
    ((isNuclearActive st env).1 = false → isScheduleActive st env = false →
      (∃ ts, st.timerState = some ts ∧ ts.status = "focus") →
      (handleCheckBlocked domain st env).1 = ⟨true, some ("blocklist")⟩) := by
  unfold handleCheckBlocked
  refine ⟨?_, ?_, ?_⟩
  · intro hn
    simp [hmem, hn]
  · intro hn hs
    simp [hmem, hn, isScheduleActive_heal, hs]
  · intro hn hs hts
    obtain ⟨ts, hts, hfocus⟩ := hts
    have hpres := (isNuclearActive_preserves st env).2.2.1
    simp [hmem, hn, isScheduleActive_heal, hs, hpres, hts, hfocus]

theorem handleCheckBlocked_precedence_witness :
    (inEffectiveBlocklist
        ⟨["a.com"], [], none, ⟨none, some ⟨true, some 2000000000⟩⟩, [], [], true, none, []⟩
        ⟨1000000000, 1, "12:00", fun _ => none⟩ ("a.com") = true) ∧
    ((isNuclearActive
        ⟨["a.com"], [], none, ⟨none, some ⟨true, some 2000000000⟩⟩, [], [], true, none, []⟩
        ⟨1000000000, 1, "12:00", fun _ => none⟩).1 = true) ∧
    ((handleCheckBlocked ("a.com")
        ⟨["a.com"], [], none, ⟨none, some ⟨true, some 2000000000⟩⟩, [], [], true, none, []⟩
        ⟨1000000000, 1, "12:00", fun _ => none⟩).1 = ⟨true, some ("nuclear")⟩) :=
  ⟨by decide, by decide,
    (handleCheckBlocked_precedence ("a.com") _ _ (by decide)).1 (by decide)⟩

-- ---------------------------------------------------------------------------
-- C8: CHECK_BLOCKED and state mutation
-- ---------------------------------------------------------------------------

/-- C8 counterexample: a CHECK_BLOCKED query is not mutation-free.  With
the queried domain on the blocklist and a stale nuclear lock stored
(`active = true`, `endsAt` already passed), handling the query rewrites
the settings: the lazy-expiry self-heal inside `isNuclearActive`
persists `{ active: false, endsAt: null }`. -/
theorem handleCheckBlocked_mutation_counterexample :
    (handleCheckBlocked ("a.com")
        ⟨["a.com"], [], none, ⟨none, some ⟨true, some 5⟩⟩, [], [], false, none, []⟩
        ⟨1000000000, 1, "12:00", fun _ => none⟩).2.settings ≠
      (⟨["a.com"], [], none, ⟨none, some ⟨true, some 5⟩⟩, [], [], false, none, []⟩ : St).settings := by
  decide

/-- C8 amended: handling CHECK_BLOCKED leaves the blocklist, the timer
state, the rule table, the session flag, the badge, the alarms and the
schedule settings untouched, and leaves the whole state unchanged except
in exactly one case: when the queried domain passes the blocklist
membership test and the stored nuclear lock is stale (flag set, `endsAt`
passed), the nuclear sub-object is corrected to
`{ active: false, endsAt: null }` by the lazy-expiry self-heal. -/
theorem handleCheckBlocked_frame (domain : String) (st : St) (env : Env) :
    (handleCheckBlocked domain st env).2 =
      (if inEffectiveBlocklist st env domain && staleNuclear st env then healNuclear st
       else st) := by
  have hsnd : (handleCheckBlocked domain st env).2 =
      if inEffectiveBlocklist st env domain then (isNuclearActive st env).2 else st := by
    unfold handleCheckBlocked
    by_cases hmem : inEffectiveBlocklist st env domain <;> simp [hmem]
    by_cases hn : (isNuclearActive st env).1 <;> simp [hn]
    by_cases hs : isScheduleActive (isNuclearActive st env).2 env <;> simp [hs]
    rcases hts : (isNuclearActive st env).2.timerState with _ | ts <;> simp [hts]
    split <;> rfl
  rw [hsnd]
  by_cases hmem : inEffectiveBlocklist st env domain <;>
    by_cases hst : staleNuclear st env <;>
    simp [hmem, hst, isNuclearActive_snd]

-- ---------------------------------------------------------------------------
-- C9: decision service vs. rule table on subdomains
-- ---------------------------------------------------------------------------

/-- Matching condition of a domain-anchored urlFilter `||d` as the claim
and the declarativeNetRequest documentation describe it: the filter
matches the host `d` itself and every subdomain of `d`. -/
def hostMatchesDomainAnchor (d host : String) : Bool :=
  host == d || (('.' :: d.data).isSuffixOf host.data)

theorem buildRules_mem (domains : List String) (d : String) (hd : d ∈ domains) (i : Nat) :
    ∃ r ∈ buildRules i domains, r.urlFilter = "||" ++ cleanDomain d := by
  induction domains generalizing i with
  | nil => cases hd
  | cons x xs ih =>
    rcases List.mem_cons.mp hd with h | h
    · exact ⟨⟨i, "||" ++ cleanDomain x⟩, List.mem_cons_self _ _, by rw [h]⟩
    · obtain ⟨r, hr, hru⟩ := ih h (i + 1)
      exact ⟨r, List.mem_cons_of_mem _ hr, hru⟩

/-- C9 counterexample: not every strict subdomain of a blocked domain is
reported unblocked.  With blocklist `["a.com"]` and a focus session
running, the strict subdomain `www.a.com` of `a.com` is reported
blocked, because the membership test strips a leading `www.` from the
query before comparing. -/
theorem checkBlocked_subdomain_counterexample :
    ("www.a.com" = "www." ++ "a.com") ∧
    ((handleCheckBlocked ("www.a.com")
        (startFocusSession 25
          ⟨["a.com"], [], none, ⟨none, none⟩, [], [], false, none, []⟩
          ⟨1000000000, 1, "12:00", fun _ => none⟩)
        ⟨1000000000, 1, "12:00", fun _ => none⟩).1.blocked = true) := by
  refine ⟨by decide, by decide⟩

/-- C9 amended: `handleCheckBlocked` tests membership by exact string
equality after stripping a leading `www.` (and a `/`-suffix), so for
every clean domain `d` in the effective blocklist and every strict
subdomain `s` of `d` whose own www-stripped form matches no blocklist
entry, the decision service answers not-blocked — even while a focus
session is active — although `updateBlockingRules` installs for `d` a
rule whose urlFilter `||d` matches `d` and all of its subdomains
(including `s`): the decision service and the rule table disagree on
such subdomains. -/
theorem checkBlocked_subdomain_mismatch (st : St) (env : Env) (d s : String) (p : List Char)
    (hd : d ∈ getFullBlocklist st env)
    (hdclean : cleanDomain d = d)
    (hsub : s.data = p ++ '.' :: d.data)
    (hp : p ≠ [])
    (hmem : inEffectiveBlocklist st env s = false) :
    (handleCheckBlocked s st env).1.blocked = false ∧
    (∃ r ∈ buildRules 1 (getFullBlocklist st env),
      r.urlFilter = "||" ++ d ∧ hostMatchesDomainAnchor d s = true) := by
  constructor
  · unfold handleCheckBlocked
    simp [hmem]
  · obtain ⟨r, hr, hru⟩ := buildRules_mem (getFullBlocklist st env) d hd 1
    refine ⟨r, hr, by rw [hru, hdclean], ?_⟩
    unfold hostMatchesDomainAnchor
    have : (('.' :: d.data).isSuffixOf s.data) = true := by
      rw [List.isSuffixOf_iff_suffix, hsub]
      exact List.suffix_append p ('.' :: d.data)
    simp [this]

theorem checkBlocked_subdomain_mismatch_witness :
    (("a.com" : String) ∈ getFullBlocklist
        (startFocusSession 25
          ⟨["a.com"], [], none, ⟨none, none⟩, [], [], false, none, []⟩
          ⟨1000000000, 1, "12:00", fun _ => none⟩)
        ⟨1000000000, 1, "12:00", fun _ => none⟩) ∧
    (cleanDomain ("a.com") = "a.com") ∧
    ("old.a.com".data = "old".data ++ '.' :: "a.com".data) ∧
    (inEffectiveBlocklist
        (startFocusSession 25
          ⟨["a.com"], [], none, ⟨none, none⟩, [], [], false, none, []⟩
          ⟨1000000000, 1, "12:00", fun _ => none⟩)
        ⟨1000000000, 1, "12:00", fun _ => none⟩ ("old.a.com") = false) ∧
    ((handleCheckBlocked ("old.a.com")
        (startFocusSession 25
          ⟨["a.com"], [], none, ⟨none, none⟩, [], [], false, none, []⟩
          ⟨1000000000, 1, "12:00", fun _ => none⟩)
        ⟨1000000000, 1, "12:00", fun _ => none⟩).1.blocked = false) ∧
    (∃ r ∈ buildRules 1
        (getFullBlocklist
          (startFocusSession 25
            ⟨["a.com"], [], none, ⟨none, none⟩, [], [], false, none, []⟩
            ⟨1000000000, 1, "12:00", fun _ => none⟩)
          ⟨1000000000, 1, "12:00", fun _ => none⟩),
      r.urlFilter = "||" ++ "a.com" ∧ hostMatchesDomainAnchor ("a.com") ("old.a.com") = true) := by
  refine ⟨by decide, by decide, by decide, by decide, ?_, ?_⟩
  · exact (checkBlocked_subdomain_mismatch _ _ ("a.com") ("old.a.com") ("old".data)
      (by decide) (by decide) (by decide) (by decide) (by decide)).1
  · exact (checkBlocked_subdomain_mismatch _ _ ("a.com") ("old.a.com") ("old".data)
      (by decide) (by decide) (by decide) (by decide) (by decide)).2

-- ---------------------------------------------------------------------------
-- C6: UPDATE_BLOCKLIST validation, dedup, and wholesale rejection
-- ---------------------------------------------------------------------------

theorem sanitizeLoop_firstInvalid (pre : List String) (bad : String) (rest : List String)
    (hpre : ∀ x ∈ pre, sanitizeDomain x ≠ none) (hbad : sanitizeDomain bad = none) :
    ∀ acc, sanitizeLoop acc (pre ++ bad :: rest) =
      .error ("Invalid domain: " ++ String.mk (bad.data.take 100)) := by
  induction pre with
  | nil =>
    intro acc
    simp [sanitizeLoop, hbad]
  | cons x xs ih =>
    intro acc
    have hx := hpre x (List.mem_cons_self _ _)
    obtain ⟨c, hc⟩ := Option.ne_none_iff_exists.mp hx
    simp only [List.cons_append, sanitizeLoop, ← hc]
    exact ih (fun y hy => hpre y (List.mem_cons_of_mem _ hy)) _

theorem sanitizeLoop_allValid (sites : List String)
    (h : ∀ x ∈ sites, sanitizeDomain x ≠ none) :
    ∀ acc, sanitizeLoop acc sites = .ok (dedupInto acc (sites.filterMap sanitizeDomain)) := by
  induction sites with
  | nil => intro acc; simp [sanitizeLoop, dedupInto]
  | cons x xs ih =>
    intro acc
    have hx := h x (List.mem_cons_self _ _)
    obtain ⟨c, hc⟩ := Option.ne_none_iff_exists.mp hx
    simp only [sanitizeLoop, ← hc, List.filterMap_cons, dedupInto]
    exact ih (fun y hy => h y (List.mem_cons_of_mem _ hy)) _

/-- C6: handling UPDATE_BLOCKLIST (with the nuclear lock not active, in
which case the request is refused outright before validation): a list
longer than the 500-entry maximum is rejected wholesale with the
size-limit error and no state beyond the nuclear self-heal is written; a
list containing an entry the normalizer rejects is rejected with an
error naming the first such entry (truncated to 100 characters) and
nothing is written; otherwise the handler succeeds and the stored
blocklist is exactly the normalized list deduplicated in first-occurrence
order. -/
theorem handleUpdateBlocklist_spec (sites : List String) (st : St) (env : Env)
    (hn : (isNuclearActive st env).1 = false) :
    (MAX_BLOCKLIST_SIZE < sites.length →
      handleUpdateBlocklist sites st env =
        (.err ("Blocklist cannot exceed " ++ toString MAX_BLOCKLIST_SIZE ++ " sites."),
          (isNuclearActive st env).2)) ∧
    (sites.length ≤ MAX_BLOCKLIST_SIZE →
      (∀ pre bad rest, sites = pre ++ bad :: rest →
        (∀ x ∈ pre, sanitizeDomain x ≠ none) → sanitizeDomain bad = none →
        handleUpdateBlocklist sites st env =
          (.err ("Invalid domain: " ++ String.mk (bad.data.take 100)),
            (isNuclearActive st env).2)) ∧
      ((∀ x ∈ sites, sanitizeDomain x ≠ none) →
        (handleUpdateBlocklist sites st env).1 = .ok ∧
        (handleUpdateBlocklist sites st env).2.blocklist =
          dedupFirst (sites.filterMap sanitizeDomain))) := by
  refine ⟨?_, fun hlen => ⟨?_, ?_⟩⟩
  · intro hlong
    unfold handleUpdateBlocklist
    simp [hn, hlong]
  · intro pre bad rest hsplit hpre hbad
    subst hsplit
    unfold handleUpdateBlocklist
    have hloop := sanitizeLoop_firstInvalid pre bad rest hpre hbad []
    have hL : ¬(MAX_BLOCKLIST_SIZE < (pre ++ bad :: rest).length) := not_lt.mpr hlen
    simp [hn, hloop]
    intro h
    exact absurd (show MAX_BLOCKLIST_SIZE < (pre ++ bad :: rest).length by simpa using h) hL
  · intro hvalid
    unfold handleUpdateBlocklist
    have hloop := sanitizeLoop_allValid sites hvalid []
    have hlen2 : ¬(MAX_BLOCKLIST_SIZE < sites.length) := not_lt.mpr hlen
    constructor
    · simp only [hn, Bool.false_eq_true, if_false, hlen2, hloop]
    · simp only [hn, Bool.false_eq_true, if_false, hlen2, hloop, dedupFirst]
      split <;> simp [updateBlockingRulesSt]

theorem handleUpdateBlocklist_spec_witness :
    ((isNuclearActive
        ⟨[], [], none, ⟨none, none⟩, [], [], false, none, []⟩
        ⟨1000000000, 1, "12:00", fun _ => none⟩).1 = false) ∧
    (∀ x ∈ (["a.com", "a.com", "www.a.com"] : List String), sanitizeDomain x ≠ none) ∧
    ((handleUpdateBlocklist ["a.com", "a.com", "www.a.com"]
        ⟨[], [], none, ⟨none, none⟩, [], [], false, none, []⟩
        ⟨1000000000, 1, "12:00", fun _ => none⟩).1 = .ok) ∧
    ((handleUpdateBlocklist ["a.com", "a.com", "www.a.com"]
        ⟨[], [], none, ⟨none, none⟩, [], [], false, none, []⟩
        ⟨1000000000, 1, "12:00", fun _ => none⟩).2.blocklist = ["a.com"]) := by
  have h := (handleUpdateBlocklist_spec ["a.com", "a.com", "www.a.com"]
      ⟨[], [], none, ⟨none, none⟩, [], [], false, none, []⟩
      ⟨1000000000, 1, "12:00", fun _ => none⟩ (by decide)).2 (by decide)
  have h2 := h.2 (by decide)
  exact ⟨by decide, by decide, h2.1, h2.2.trans (by decide)⟩

-- ---------------------------------------------------------------------------
-- C7: cold-start recovery re-derives the session state
-- ---------------------------------------------------------------------------

/-- C7: on cold start (nuclear not active), `restoreState` re-reads the
persisted session; when the recomputed remaining
`duration - floor((now - startedAt)/1000)` is not positive it runs the
very completion logic a tick would have run (`onFocusComplete` for a
focus session, `onBreakComplete` otherwise) instead of keeping the stale
record; when it is positive, it persists the recomputed remaining and,
for a focus session, re-installs the blocking rules from the effective
blocklist and re-asserts the session flag. -/
theorem restoreState_recovery (st : St) (env : Env) (ts : TimerState) (t0 : Int)
    (hn : (isNuclearActive st env).1 = false)
    (hts : st.timerState = some ts)
    (hstart : ts.startedAt = some t0) (ht0 : t0 ≠ 0)
    (hidle : ts.status ≠ "idle") :
    (ts.duration - (env.now - t0).fdiv 1000 ≤ 0 →
      restoreState st env =
        (if ts.status = "focus" then onFocusComplete ts (isNuclearActive st env).2 env
         else onBreakComplete ts (isNuclearActive st env).2 env)) ∧
    (0 < ts.duration - (env.now - t0).fdiv 1000 →
      (restoreState st env).timerState =
        some { ts with remaining := ts.duration - (env.now - t0).fdiv 1000 } ∧
      (ts.status = "focus" →
        (restoreState st env).rules = buildRules 1 (getFullBlocklist st env) ∧
        (restoreState st env).sessionFlag = true)) := by
  have htr : (startedAtTruthy (some t0) && ts.status != "idle") = true := by
    simp [startedAtTruthy, ht0, hidle]
  have hfl : getFullBlocklist (isNuclearActive st env).2 env = getFullBlocklist st env :=
    getFullBlocklist_heal st env
  constructor
  · intro hrem
    unfold restoreState
    simp only [hn, Bool.false_eq_true, if_false, hts, hstart, Option.getD_some, htr, if_true]
    rw [if_pos hrem]
  · intro hrem
    unfold restoreState
    simp only [hn, Bool.false_eq_true, if_false, hts, hstart, Option.getD_some, htr, if_true]
    rw [if_neg (not_le.mpr hrem)]
    have hbl : ∀ o : Option TimerState,
        getFullBlocklist { (isNuclearActive st env).2 with timerState := o } env =
          getFullBlocklist st env := by
      intro o
      rw [← hfl]
      simp [getFullBlocklist]
    by_cases hfocus : ts.status = "focus"
    · refine ⟨?_, fun _ => ⟨?_, ?_⟩⟩ <;>
        simp only [hfocus, if_true, if_pos rfl] <;>
        unfold addAlarm updateBadge setSessionFlag updateBlockingRulesSt <;>
        split_ifs <;> simp [hbl, hfocus, hstart]
    · refine ⟨?_, fun hc => absurd hc hfocus⟩
      simp only [hfocus, if_false]
      unfold addAlarm updateBadge
      split_ifs <;> simp

theorem restoreState_recovery_witness :
    ((isNuclearActive
        ⟨["a.com"], [], some ⟨"focus", 1500, 1500, some 1, 2⟩, ⟨none, none⟩, [],
          buildRules 1 ["a.com"], true, none, [ALARM_TICK]⟩
        ⟨1000000000, 1, "12:00", fun _ => none⟩).1 = false) ∧
    ((1500 : Int) - ((1000000000 : Int) - 1).fdiv 1000 ≤ 0) ∧
    restoreState
        ⟨["a.com"], [], some ⟨"focus", 1500, 1500, some 1, 2⟩, ⟨none, none⟩, [],
          buildRules 1 ["a.com"], true, none, [ALARM_TICK]⟩
        ⟨1000000000, 1, "12:00", fun _ => none⟩ =
      onFocusComplete ⟨"focus", 1500, 1500, some 1, 2⟩
        (isNuclearActive
          ⟨["a.com"], [], some ⟨"focus", 1500, 1500, some 1, 2⟩, ⟨none, none⟩, [],
            buildRules 1 ["a.com"], true, none, [ALARM_TICK]⟩
          ⟨1000000000, 1, "12:00", fun _ => none⟩).2
        ⟨1000000000, 1, "12:00", fun _ => none⟩ := by
  refine ⟨by decide, by decide, ?_⟩
  have h := (restoreState_recovery
      ⟨["a.com"], [], some ⟨"focus", 1500, 1500, some 1, 2⟩, ⟨none, none⟩, [],
        buildRules 1 ["a.com"], true, none, [ALARM_TICK]⟩
      ⟨1000000000, 1, "12:00", fun _ => none⟩
      ⟨"focus", 1500, 1500, some 1, 2⟩ 1
      (by decide) rfl rfl (by decide) (by decide)).1 (by decide)
  simpa using h

-- ---------------------------------------------------------------------------
-- C4: properties of the domain normalizer
-- ---------------------------------------------------------------------------

theorem leadsWith_mem (p l : List Char) (h : leadsWith p l = true) : ∀ c ∈ p, c ∈ l := by
  induction p generalizing l with
  | nil => intro c hc; cases hc
  | cons x xs ih =>
    cases l with
    | nil => simp [leadsWith] at h
    | cons y ys =>
      simp only [leadsWith, Bool.and_eq_true, decide_eq_true_eq] at h
      intro c hc
      rcases List.mem_cons.mp hc with rfl | hc
      · rw [h.1]; exact List.mem_cons_self _ _
      · exact List.mem_cons_of_mem _ (ih ys h.2 c hc)

theorem splitOnDot_ne_nil (l : List Char) : splitOnDot l ≠ [] := by
  cases l with
  | nil => simp [splitOnDot]
  | cons c rest =>
    simp only [splitOnDot]
    split
    · simp
    · split <;> simp

theorem mem_splitOnDot_cover (l : List Char) :
    ∀ c ∈ l, c = '.' ∨ ∃ part ∈ splitOnDot l, c ∈ part := by
  induction l with
  | nil => intro c hc; cases hc
  | cons x rest ih =>
    intro c hc
    by_cases hx : x = '.'
    · rcases List.mem_cons.mp hc with rfl | hc
      · exact Or.inl hx
      · rcases ih c hc with h | ⟨part, hp, hcp⟩
        · exact Or.inl h
        · refine Or.inr ⟨part, ?_, hcp⟩
          simp only [splitOnDot, hx, if_true, if_pos rfl]
          exact List.mem_cons_of_mem _ hp
    · rcases hrec : splitOnDot rest with _ | ⟨p, ps⟩
      · exact absurd hrec (splitOnDot_ne_nil rest)
      · rcases List.mem_cons.mp hc with rfl | hc
        · refine Or.inr ⟨c :: p, ?_, List.mem_cons_self _ _⟩
          simp only [splitOnDot, hx, if_false, hrec]
          exact List.mem_cons_self _ _
        · rcases ih c hc with h | ⟨part, hp, hcp⟩
          · exact Or.inl h
          · rw [hrec] at hp
            rcases List.mem_cons.mp hp with rfl | hp2
            · refine Or.inr ⟨x :: part, ?_, List.mem_cons_of_mem _ hcp⟩
              simp only [splitOnDot, hx, if_false, hrec]
              exact List.mem_cons_self _ _
            · refine Or.inr ⟨part, ?_, hcp⟩
              simp only [splitOnDot, hx, if_false, hrec]
              exact List.mem_cons_of_mem _ hp2

theorem isLabel_chars (p : List Char) (h : isLabel p = true) :
    ∀ c ∈ p, isAlnumLC c = true ∨ c = '-' := by
  cases p with
  | nil => simp [isLabel] at h
  | cons x rest =>
    cases hlast : rest.getLast? with
    | none =>
      have hre : rest = [] := List.getLast?_eq_none_iff.mp hlast
      subst hre
      simp only [isLabel, hlast] at h
      intro c hc
      rcases List.mem_cons.mp hc with rfl | hc
      · exact Or.inl h
      · cases hc
    | some lastc =>
      simp only [isLabel, hlast, Bool.and_eq_true, List.all_eq_true] at h
      intro c hc
      have := h.2 c hc
      rcases Bool.or_eq_true_iff.mp this with h2 | h2
      · exact Or.inl h2
      · exact Or.inr (by simpa using h2)

theorem domainRegex_chars (l : List Char) (h : domainRegexMatch l = true) :
    ∀ c ∈ l, isAlnumLC c = true ∨ c = '-' ∨ c = '.' := by
  intro c hc
  unfold domainRegexMatch at h
  rw [Bool.and_eq_true, List.all_eq_true] at h
  rcases mem_splitOnDot_cover l c hc with h1 | ⟨part, hp, hcp⟩
  · exact Or.inr (Or.inr h1)
  · rcases isLabel_chars part (h.2 part hp) c hcp with h2 | h2
    · exact Or.inl h2
    · exact Or.inr (Or.inl h2)

theorem charset_not_special (c : Char) (h : isAlnumLC c = true ∨ c = '-' ∨ c = '.') :
    isWS c = false ∧ jsToLowerChar c = c ∧ c ≠ '/' ∧ c ≠ '?' ∧ c ≠ '#' ∧ c ≠ ':' := by
  rcases h with h | h | h
  · have hb : (97 ≤ c.toNat ∧ c.toNat ≤ 122) ∨ (48 ≤ c.toNat ∧ c.toNat ≤ 57) := by
      simpa [isAlnumLC] using h
    refine ⟨?_, ?_, ?_, ?_, ?_, ?_⟩
    · simp only [isWS, Bool.or_eq_false_iff, decide_eq_false_iff_not]
      omega
    · unfold jsToLowerChar
      rw [if_neg]
      omega
    · intro heq; rw [heq] at hb; revert hb; decide
    · intro heq; rw [heq] at hb; revert hb; decide
    · intro heq; rw [heq] at hb; revert hb; decide
    · intro heq; rw [heq] at hb; revert hb; decide
  · subst h; refine ⟨by decide, by decide, by decide, by decide, by decide, by decide⟩
  · subst h; refine ⟨by decide, by decide, by decide, by decide, by decide, by decide⟩

theorem dropWhile_eq_self_of (p : Char → Bool) (l : List Char)
    (h : ∀ c ∈ l, p c = false) : l.dropWhile p = l := by
  cases l with
  | nil => rfl
  | cons x xs =>
    rw [List.dropWhile_cons, h x (List.mem_cons_self _ _)]
    simp

theorem jsTrim_eq_self (l : List Char) (h : ∀ c ∈ l, isWS c = false) : jsTrim l = l := by
  unfold jsTrim
  rw [dropWhile_eq_self_of _ _ h,
    dropWhile_eq_self_of _ _ (fun c hc => h c (List.mem_reverse.mp hc)),
    List.reverse_reverse]

theorem jsToLower_eq_self (l : List Char) (h : ∀ c ∈ l, jsToLowerChar c = c) :
    jsToLower l = l :=
  (List.map_congr_left h).trans (List.map_id l)

theorem takeTil_eq_self (x : Char) (l : List Char) (h : ∀ c ∈ l, c ≠ x) : takeTil x l = l := by
  unfold takeTil
  induction l with
  | nil => rfl
  | cons y ys ih =>
    rw [List.takeWhile_cons]
    have hy : (y != x) = true := by simpa using h y (List.mem_cons_self _ _)
    rw [hy, if_pos rfl, ih (fun c hc => h c (List.mem_cons_of_mem _ hc))]

theorem stripProtocol_eq_self (l : List Char) (h : ∀ c ∈ l, c ≠ ':') : stripProtocol l = l := by
  have h1 : leadsWith ("https://".data) l = false := by
    cases hc : leadsWith ("https://".data) l with
    | false => rfl
    | true => exact absurd rfl (h ':' (leadsWith_mem _ _ hc ':' (by decide)))
  have h2 : leadsWith ("http://".data) l = false := by
    cases hc : leadsWith ("http://".data) l with
    | false => rfl
    | true => exact absurd rfl (h ':' (leadsWith_mem _ _ hc ':' (by decide)))
  unfold stripProtocol
  rw [h1, h2]
  simp

theorem stripWWW_eq_self (l : List Char) (h : leadsWith ("www.".data) l = false) :
    stripWWW l = l := by
  unfold stripWWW
  rw [h]
  simp

theorem cleanup_eq_self (l : List Char)
    (hchar : ∀ c ∈ l, isAlnumLC c = true ∨ c = '-' ∨ c = '.')
    (hw : leadsWith ("www.".data) l = false) : cleanup l = l := by
  have hp := fun c hc => charset_not_special c (hchar c hc)
  unfold cleanup
  rw [jsTrim_eq_self l (fun c hc => (hp c hc).1),
    jsToLower_eq_self l (fun c hc => (hp c hc).2.1),
    stripProtocol_eq_self l (fun c hc => (hp c hc).2.2.2.2.2),
    stripWWW_eq_self l hw,
    takeTil_eq_self '/' l (fun c hc => (hp c hc).2.2.1),
    takeTil_eq_self '?' l (fun c hc => (hp c hc).2.2.2.1),
    takeTil_eq_self '#' l (fun c hc => (hp c hc).2.2.2.2.1),
    takeTil_eq_self ':' l (fun c hc => (hp c hc).2.2.2.2.2)]

theorem sanitizeCore_some (l c : List Char) (h : sanitizeCore l = some c) :
    c = cleanup l ∧ (cleanup l).isEmpty = false ∧ ¬(253 < (cleanup l).length) ∧
    (cleanup l).contains '.' = true ∧ domainRegexMatch (cleanup l) = true := by
  unfold sanitizeCore at h
  by_cases h0 : l.isEmpty = true
  · rw [if_pos h0] at h; cases h
  · rw [if_neg h0] at h
    by_cases h1 : ((cleanup l).isEmpty || decide (253 < (cleanup l).length) ||
        !((cleanup l).contains '.')) = true
    · rw [if_pos h1] at h; cases h
    · rw [if_neg h1] at h
      by_cases h2 : (!(domainRegexMatch (cleanup l))) = true
      · rw [if_pos h2] at h; cases h
      · rw [if_neg h2] at h
        rw [Option.some.injEq] at h
        have hreg : domainRegexMatch (cleanup l) = true := by
          revert h2; cases domainRegexMatch (cleanup l) <;> simp
        have he : (cleanup l).isEmpty = false := by
          revert h1; cases (cleanup l).isEmpty <;> simp
        have hdot : (cleanup l).contains '.' = true := by
          revert h1; cases (cleanup l).contains '.' <;> simp
        have hlen : ¬(253 < (cleanup l).length) := by
          intro hcl
          apply h1
          rw [decide_eq_true hcl]
          simp
        exact ⟨h.symm, he, hlen, hdot, hreg⟩

theorem sanitizeCore_idem (l d : List Char) (h : sanitizeCore l = some d)
    (hw : leadsWith ("www.".data) d = false) : sanitizeCore d = some d := by
  obtain ⟨hc, hne, hlen, hdot, hreg⟩ := sanitizeCore_some l d h
  subst hc
  have hself := cleanup_eq_self (cleanup l) (domainRegex_chars _ hreg) hw
  have hcond : ((cleanup (cleanup l)).isEmpty ||
      decide (253 < (cleanup (cleanup l)).length) ||
      !((cleanup (cleanup l)).contains '.')) = false := by
    rw [hself, hne, hdot, decide_eq_false hlen]
    rfl
  unfold sanitizeCore
  rw [if_neg (by simp [hne]), if_neg (by rw [hcond]; simp),
    if_neg (by rw [hself, hreg]; simp), hself]

theorem mem_jsTrim (l : List Char) (c : Char) (hc : c ∈ jsTrim l) : c ∈ l := by
  unfold jsTrim at hc
  rw [List.mem_reverse] at hc
  have h1 := (List.dropWhile_sublist _).subset hc
  rw [List.mem_reverse] at h1
  exact (List.dropWhile_sublist _).subset h1

theorem mem_stripProtocol (l : List Char) (c : Char) (hc : c ∈ stripProtocol l) : c ∈ l := by
  unfold stripProtocol at hc
  split_ifs at hc
  · exact (List.drop_sublist _ _).subset hc
  · exact (List.drop_sublist _ _).subset hc
  · exact hc

theorem mem_stripWWW (l : List Char) (c : Char) (hc : c ∈ stripWWW l) : c ∈ l := by
  unfold stripWWW at hc
  split_ifs at hc
  · exact (List.drop_sublist _ _).subset hc
  · exact hc

theorem mem_cleanup (l : List Char) (c : Char) (hc : c ∈ cleanup l) :
    ∃ c0 ∈ l, jsToLowerChar c0 = c := by
  unfold cleanup at hc
  have h1 := (List.takeWhile_sublist _).subset hc
  have h2 := (List.takeWhile_sublist _).subset h1
  have h3 := (List.takeWhile_sublist _).subset h2
  have h4 := (List.takeWhile_sublist _).subset h3
  have h5 := mem_stripProtocol _ _ (mem_stripWWW _ _ h4)
  obtain ⟨c0, hc0, hlc⟩ := List.mem_map.mp h5
  exact ⟨c0, mem_jsTrim _ _ hc0, hlc⟩

theorem jsToLowerChar_eq_dot (c : Char) (h : jsToLowerChar c = '.') : c = '.' := by
  unfold jsToLowerChar at h
  split_ifs at h with hc
  · exfalso
    have hv : (c.toNat + 32).isValidChar := Or.inl (by omega)
    have ht : (Char.ofNat (c.toNat + 32)).toNat = c.toNat + 32 := by
      unfold Char.ofNat
      rw [dif_pos hv]
      rfl
    have h46 := congrArg Char.toNat h
    rw [ht] at h46
    have : ('.').toNat = 46 := by decide
    omega
  · exact h

theorem sanitizeDomain_rejects_noDot (x : String) (h : x.data.contains '.' = false) :
    sanitizeDomain x = none := by
  unfold sanitizeDomain sanitizeCore
  by_cases h0 : x.data.isEmpty = true
  · rw [if_pos h0]; rfl
  · have hnd : (cleanup x.data).contains '.' = false := by
      cases hcc : (cleanup x.data).contains '.' with
      | false => rfl
      | true =>
        exfalso
        have hdot : '.' ∈ cleanup x.data := List.elem_iff.mp hcc
        obtain ⟨c0, hc0, hlc⟩ := mem_cleanup _ _ hdot
        have hc0d : c0 = '.' := jsToLowerChar_eq_dot c0 hlc
        subst hc0d
        have h2 : x.data.contains '.' = true := List.elem_iff.mpr hc0
        rw [h] at h2
        cases h2
    have hcond : ((cleanup x.data).isEmpty || decide (253 < (cleanup x.data).length) ||
        !((cleanup x.data).contains '.')) = true := by
      rw [hnd]
      simp
    rw [if_neg h0, if_pos hcond]
    rfl

theorem sanitizeDomain_rejects_cleanedLong (x : String)
    (h : 253 < (cleanup x.data).length) : sanitizeDomain x = none := by
  unfold sanitizeDomain sanitizeCore
  by_cases h0 : x.data.isEmpty = true
  · rw [if_pos h0]; rfl
  · have hcond : ((cleanup x.data).isEmpty || decide (253 < (cleanup x.data).length) ||
        !((cleanup x.data).contains '.')) = true := by
      rw [decide_eq_true h]
      simp
    rw [if_neg h0, if_pos hcond]
    rfl

set_option maxRecDepth 8192 in
/-- C4 counterexample: `sanitizeDomain` is not idempotent on all accepted
inputs, and the 253-character bound is applied to the cleaned string,
not the submitted one.  `www.www.com` is accepted as `www.com`, yet a
second normalization of `www.com` strips the retained `www.` and rejects
the remainder (`com` has no dot); and a 254-character input beginning
with `www.` is accepted rather than rejected. -/
theorem sanitizeDomain_claim_counterexample :
    (sanitizeDomain ("www.www.com") = some ("www.com")) ∧
    (sanitizeDomain ("www.com") = none) ∧
    (("www." ++ String.mk (List.replicate 246 'a') ++ ".com").length = 254) ∧
    (sanitizeDomain ("www." ++ String.mk (List.replicate 246 'a') ++ ".com") =
      some (String.mk (List.replicate 246 'a') ++ ".com")) := by
  refine ⟨by decide, by decide, by decide, by decide⟩

/-- C4 amended: `sanitizeDomain` never throws (it is a total function
into an option), rejects the empty string and every input without a dot,
rejects every input whose cleaned form exceeds 253 characters (the bound
is checked after trimming and stripping protocol/www/path/port, so a
longer raw input can still be accepted), and is idempotent on every
accepted input whose normalized form does not itself begin with `www.`
(a retained `www.` prefix is stripped again by a second application). -/
theorem sanitizeDomain_amended :
    (∀ x d : String, sanitizeDomain x = some d →
      leadsWith ("www.".data) d.data = false → sanitizeDomain d = some d) ∧
    (sanitizeDomain ("") = none) ∧
    (∀ x : String, x.data.contains '.' = false → sanitizeDomain x = none) ∧
    (∀ x : String, 253 < (cleanup x.data).length → sanitizeDomain x = none) := by
  refine ⟨?_, by decide, sanitizeDomain_rejects_noDot, sanitizeDomain_rejects_cleanedLong⟩
  intro x d h hw
  unfold sanitizeDomain at h ⊢
  obtain ⟨c, hc, hmk⟩ := Option.map_eq_some'.mp h
  have hdc : d.data = c := by rw [← hmk]
  rw [hdc] at hw
  rw [hdc, sanitizeCore_idem x.data c hc hw, Option.map_some']
  rw [← hmk]

theorem sanitizeDomain_amended_witness :
    (sanitizeDomain ("https://Example.COM/path") = some ("example.com")) ∧
    (leadsWith ("www.".data) ("example.com").data = false) ∧
    (sanitizeDomain ("example.com") = some ("example.com")) :=
  ⟨by decide, by decide,
    sanitizeDomain_amended.1 ("https://Example.COM/path") ("example.com")
      (by decide) (by decide)⟩

end FocusBlocker
